import Mathlib

/-!
# Verification of the INTERACTION track data API

A shallow embedding of `interaction/dataset/track_api.py` (class
`INTERACTIONScenario`) together with proofs about its behaviour.

Modelling conventions:
* A pandas `DataFrame` of motion-state rows becomes a `List Row`, kept in
  file order.  Slicing (`df.loc[...]`) and boolean masking become `List.filter`.
* Python dictionaries become association lists `List (k × v)`; insertion keeps
  first-occurrence key order (as Python dicts do) and lookup is positional.
* Raising an exception becomes returning `Except.error` with the Python
  exception class (`KeyError`, `ValueError`, `AssertionError`) as the payload.
* Numeric columns that are only carried through (positions, velocities) are
  modelled as `Int`; none of the verified properties computes with them.
-/

set_option maxHeartbeats 1000000

namespace InteractionDevkit

/-- Modelled from the spec: the agent-type enumeration of
`interaction.dataset.tracks.typing.AgentType` (module not under `src/`):
"agent type (enumerated: e.g. car, pedestrian/bicycle)".  The exact set of
variants beyond `car` and `pedestrian` is immaterial to the properties below. -/
inductive AgentType where
  | car
  | pedestrian
  | bicycle
  deriving DecidableEq, Repr

/-- Modelled from the spec: `interaction.dataset.tracks.container.MotionState`
(module not under `src/`): "one agent's kinematic state at one timestamp —
agent id, timestamp, position, velocity/heading fields".  Kinematic values are
carried through unchanged, so their carrier type is immaterial. -/
structure MotionState where
  agent_id : Int
  timestamp_ms : Int
  x : Int
  y : Int
  vx : Int
  vy : Int
  psi_rad : Int
  deriving DecidableEq, Repr

/-- Modelled from the spec: `interaction.dataset.tracks.container.Track`
(module not under `src/`): "one agent's full trajectory within a case — agent
id, agent type, ordered sequence of MotionState". -/
structure Track where
  agent_id : Int
  type : AgentType
  motion_states : List MotionState
  deriving DecidableEq, Repr

/-- Modelled from the spec:
`interaction.dataset.tracks.container.INTERACTIONCase` (module not under
`src/`): location name, case id, three track collections and the two per-case
id lists. -/
structure INTERACTIONCase where
  location : String
  case_id : Int
  history_tracks : List Track
  current_tracks : List Track
  futural_tracks : List Track
  tracks_to_predict : List Int
  interesting_agents : List Int
  deriving DecidableEq, Repr

/-- One CSV row of a track file, after `_init_scenario` has decoded the
`agent_type` column into the enumeration.  The flag columns
`tracks_to_predict` / `interesting_agent` exist only in test-split files and
are read only by the test branch of `_init_scenario`. -/
structure Row where
  case_id : Int
  track_id : Int
  timestamp_ms : Int
  agent_type : AgentType
  x : Int
  y : Int
  vx : Int
  vy : Int
  psi_rad : Int
  tracks_to_predict : Int
  interesting_agent : Int
  deriving DecidableEq, Repr

/-- The Python exception classes raised by the code paths modelled here. -/
inductive PyError where
  | keyError
  | valueError
  | assertionError
  deriving DecidableEq, Repr

instance {ε α : Type} [DecidableEq ε] [DecidableEq α] :
    DecidableEq (Except ε α) := fun x y =>
  match x, y with
  | .ok a, .ok b =>
    if h : a = b then isTrue (by rw [h])
    else isFalse (fun hh => h (Except.ok.inj hh))
  | .ok _, .error _ => isFalse (fun hh => Except.noConfusion hh)
  | .error _, .ok _ => isFalse (fun hh => Except.noConfusion hh)
  | .error e, .error f =>
    if h : e = f then isTrue (by rw [h])
    else isFalse (fun hh => h (Except.error.inj hh))

/-- Helper for `uniqueKeep`: keep the values not seen before, remembering the
seen ones. -/
def uniqueKeepAux {α : Type} [DecidableEq α] (seen : List α) : List α → List α
  | [] => []
  | a :: rest =>
    if a ∈ seen then uniqueKeepAux seen rest
    else a :: uniqueKeepAux (a :: seen) rest

/-- `pandas.Series.unique` / dict-key collection order: all distinct values in
first-occurrence order. -/
def uniqueKeep {α : Type} [DecidableEq α] (l : List α) : List α :=
  uniqueKeepAux [] l

/-! ## Association lists standing in for Python dicts -/

/-- Positional lookup in an association list (Python `d[k]` success case /
`k in d`). -/
def dlookup {α : Type} : List (Int × α) → Int → Option α
  | [], _ => none
  | (k, v) :: rest, key => if k = key then some v else dlookup rest key

/-! ## `INTERACTIONScenario.get_tracks_from_frame`

The Python loop

```
track_dict = defaultdict(list)
track_type = {}
for track_id, row in frame.iterrows():
    motion_state = MotionState(agent_id=int(track_id), **row.rename(...))
    track_dict[track_id].append(motion_state)
    track_type[track_id] = AgentType.deserialize(row["agent_type"])
return [Track(agent_id=key, type=track_type[key], motion_states=value)
        for key, value in track_dict.items()]
```

is embedded as a structural recursion over the row list carrying the two
dicts.  `defaultdict[k].append(v)` keeps first-insertion key order and appends
at the end of the per-key list; plain dict assignment keeps key order and
overwrites the value. -/

/-- `MotionState(agent_id=int(track_id), **row.rename(...))`: the motion-state
constructor call of the loop body.  `agent_id` is the frame index value, i.e.
the row's `track_id`. -/
def rowToMotionState (r : Row) : MotionState :=
  { agent_id := r.track_id
    timestamp_ms := r.timestamp_ms
    x := r.x
    y := r.y
    vx := r.vx
    vy := r.vy
    psi_rad := r.psi_rad }

/-- `track_dict[track_id].append(motion_state)` on a `defaultdict(list)`:
append to the existing key's list, or add the key at the end with a singleton
list. -/
def upsertState : List (Int × List MotionState) → Int → MotionState →
    List (Int × List MotionState)
  | [], k, v => [(k, [v])]
  | (k', vs) :: rest, k, v =>
    if k' = k then (k', vs ++ [v]) :: rest
    else (k', vs) :: upsertState rest k v

/-- `track_type[track_id] = ...` on a plain dict: overwrite in place, or add
the key at the end. -/
def upsertType : List (Int × AgentType) → Int → AgentType →
    List (Int × AgentType)
  | [], k, v => [(k, v)]
  | (k', v') :: rest, k, v =>
    if k' = k then (k', v) :: rest
    else (k', v') :: upsertType rest k v

/-- The accumulated `(track_dict, track_type)` pair of the loop. -/
abbrev TrackAcc := List (Int × List MotionState) × List (Int × AgentType)

/-- One iteration of the `for track_id, row in frame.iterrows()` loop.  In the
`get_case` path `row["agent_type"]` already holds the decoded enumeration
value (decoded once in `_init_scenario`), so `AgentType.deserialize` on it is
the identity (modelled from the spec: decoding is a lookup from raw values to
enum variants; an already-decoded variant maps to itself). -/
def trackStep (acc : TrackAcc) (r : Row) : TrackAcc :=
  (upsertState acc.1 r.track_id (rowToMotionState r),
   upsertType acc.2 r.track_id r.agent_type)

/-- The whole loop. -/
def buildAcc : List Row → TrackAcc → TrackAcc
  | [], acc => acc
  | r :: rest, acc => buildAcc rest (trackStep acc r)

/-- `track_type[key]` in the final comprehension.  Every key of `track_dict`
was also assigned in `track_type` by the same iteration, so the fallback value
is never reached. -/
def lookupTypeD (l : List (Int × AgentType)) (k : Int) : AgentType :=
  (dlookup l k).getD AgentType.car

/-- `INTERACTIONScenario.get_tracks_from_frame`, with the frame presented as
its row list (`iterrows` order) where the index value of each row is its
`track_id`. -/
def get_tracks_from_frame (rows : List Row) : List Track :=
  let acc := buildAcc rows ([], [])
  acc.1.map (fun kv =>
    { agent_id := kv.1
      type := lookupTypeD acc.2 kv.1
      motion_states := kv.2 })

/-! ## Window extraction (`_get_history` / `_get_current` / `_get_futural`)

`self._frames[MOTION_STATE]` is the CSV row list indexed by
`(case_id, track_id)`; `df.loc[case_id]` selects the rows of one case (raising
`KeyError` when the case id is absent) and the boolean masks compare
`timestamp_ms` against 1000. -/

/-- The rows of one case, in file order (`df.loc[case_id]` selection). -/
def caseRows (rows : List Row) (cid : Int) : List Row :=
  rows.filter (fun r => r.case_id == cid)

/-- `df.loc[case_id]` with pandas `KeyError` semantics on an absent key. -/
def locCase (rows : List Row) (cid : Int) : Except PyError (List Row) :=
  if caseRows rows cid = [] then .error .keyError else .ok (caseRows rows cid)

/-- `INTERACTIONScenario._get_history`: `df.loc[df["timestamp_ms"] <= 1000]`. -/
def get_history (rows : List Row) (cid : Int) : Except PyError (List Row) :=
  (locCase rows cid).map (fun df => df.filter (fun r => decide (r.timestamp_ms ≤ 1000)))

/-- `INTERACTIONScenario._get_current`: `df.loc[df["timestamp_ms"] == 1000]`. -/
def get_current (rows : List Row) (cid : Int) : Except PyError (List Row) :=
  (locCase rows cid).map (fun df => df.filter (fun r => r.timestamp_ms == 1000))

/-- `INTERACTIONScenario._get_futural`: `df.loc[df["timestamp_ms"] > 1000]`. -/
def get_futural (rows : List Row) (cid : Int) : Except PyError (List Row) :=
  (locCase rows cid).map (fun df => df.filter (fun r => decide (r.timestamp_ms > 1000)))

/-! ## `_init_scenario`: the two per-case indices

Dict key order is immaterial (Python dicts are read only through `d[k]`
below); group lists keep first-occurrence order, which pandas `unique()`
preserves.  `groupby` sorts group keys, which only permutes dict insertion
order and the per-case track lists — nothing below depends on either order,
only on membership and dedup. -/

/-- The rows whose 0/1 flag column equals 1 (`motion_state_df.loc[... == 1]`
in the test branch of `_init_scenario`). -/
def testQual (rows : List Row) (flag : Row → Int) : List Row :=
  rows.filter (fun r => flag r == 1)

/-- The test-split index construction shared by `tracks_to_predict`
(`flag = tracks_to_predict`) and `interesting_agents`
(`flag = interesting_agent`): keep rows whose flag column equals 1, group by
`case_id`, aggregate the deduplicated `track_id`s
(`x.unique().tolist()`). -/
def testFlagIndex (rows : List Row) (flag : Row → Int) : List (Int × List Int) :=
  (uniqueKeep ((testQual rows flag).map Row.case_id)).map (fun cid =>
    (cid, uniqueKeep (((testQual rows flag).filter
      (fun r => r.case_id == cid)).map Row.track_id)))

/-- One aggregated row of
`motion_state_df.groupby(["case_id", "track_id"]).agg(min_timestamp=...,
max_timestamp=..., agent_type=("agent_type", "first"))`. -/
structure GroupStat where
  case_id : Int
  track_id : Int
  min_timestamp : Int
  max_timestamp : Int
  agent_type : AgentType
  deriving DecidableEq, Repr

/-- Minimum of a group's timestamps; groups are never empty, the default is
unreachable. -/
def minD : List Int → Int
  | [] => 0
  | a :: rest => rest.foldl min a

/-- Maximum of a group's timestamps; groups are never empty, the default is
unreachable. -/
def maxD : List Int → Int
  | [] => 0
  | a :: rest => rest.foldl max a

/-- `("agent_type", "first")` aggregation: the first row of the group in input
order; groups are never empty, the default is unreachable. -/
def headAgentType : List Row → AgentType
  | [] => AgentType.car
  | r :: _ => r.agent_type

/-- The rows of one `(case_id, track_id)` group, in input order. -/
def groupKeyRows (rows : List Row) (ct : Int × Int) : List Row :=
  rows.filter (fun r => (r.case_id, r.track_id) == ct)

/-- The aggregated entry of one `(case_id, track_id)` group. -/
def mkStat (rows : List Row) (ct : Int × Int) : GroupStat :=
  { case_id := ct.1
    track_id := ct.2
    min_timestamp := minD ((groupKeyRows rows ct).map Row.timestamp_ms)
    max_timestamp := maxD ((groupKeyRows rows ct).map Row.timestamp_ms)
    agent_type := headAgentType (groupKeyRows rows ct) }

/-- The `groupby(["case_id", "track_id"]).agg(...)` table (one entry per
distinct key pair). -/
def groupStats (rows : List Row) : List GroupStat :=
  (uniqueKeep (rows.map (fun r => (r.case_id, r.track_id)))).map (mkStat rows)

/-- The qualifying group rows of the train/val branch: `min_timestamp == 100`,
`max_timestamp == 4000` and agent type `CAR` (the code compares the decoded
`agent_type` against `AgentType.CAR.value`). -/
def trainvalQual (rows : List Row) : List GroupStat :=
  (groupStats rows).filter (fun g =>
    (g.min_timestamp == 100) && (g.max_timestamp == 4000) &&
      (g.agent_type == AgentType.car))

/-- The train/val branch of `_init_scenario`: filter the qualifying groups,
then group the surviving `track_id`s by `case_id` (`.agg(list)`). -/
def trainvalTracksToPredict (rows : List Row) : List (Int × List Int) :=
  (uniqueKeep ((trainvalQual rows).map GroupStat.case_id)).map (fun cid =>
    (cid, ((trainvalQual rows).filter
      (fun g => g.case_id == cid)).map GroupStat.track_id))

/-! ## The scenario object -/

/-- `INTERACTIONScenario` after `__init__` has validated the split and
`_init_scenario` has parsed the CSV: the location, the resolved split and the
motion-state rows in file order.  The derived indices below are functions of
these fields, matching the read-only lifecycle of the Python object. -/
structure Scenario where
  location : String
  split : String
  rows : List Row
  deriving DecidableEq, Repr

/-- `self._tracks_to_predict` as built by `_init_scenario`. -/
def tracksToPredictIndex (s : Scenario) : List (Int × List Int) :=
  if s.split = "test" then testFlagIndex s.rows Row.tracks_to_predict
  else trainvalTracksToPredict s.rows

/-- `self._interesting_agents` as built by `_init_scenario`: the flag index
for the test split, else an empty list for every distinct case id. -/
def interestingAgentsIndex (s : Scenario) : List (Int × List Int) :=
  if s.split = "test" then testFlagIndex s.rows Row.interesting_agent
  else (uniqueKeep (s.rows.map Row.case_id)).map (fun cid => (cid, []))

/-- `self._num_cases = len(motion_state_df["case_id"].unique())`. -/
def num_cases (s : Scenario) : Nat :=
  (uniqueKeep (s.rows.map Row.case_id)).length

/-- Python `d[case_id]` on one of the two index dicts (`KeyError` when the
key is absent). -/
def dictGet (d : List (Int × List Int)) (k : Int) : Except PyError (List Int) :=
  match dlookup d k with
  | some v => .ok v
  | none => .error .keyError

/-- `INTERACTIONScenario.get_case`: slice the three windows, reshape each into
tracks, and read the two per-case indices.  Exceptions propagate in
evaluation order (history, current, futural, tracks-to-predict lookup,
interesting-agents lookup); there is no `case_id` range check here. -/
def get_case (s : Scenario) (cid : Int) : Except PyError INTERACTIONCase :=
  match get_history s.rows cid with
  | .error e => .error e
  | .ok hist =>
    match get_current s.rows cid with
    | .error e => .error e
    | .ok curr =>
      match get_futural s.rows cid with
      | .error e => .error e
      | .ok fut =>
        match dictGet (tracksToPredictIndex s) cid with
        | .error e => .error e
        | .ok ttp =>
          match dictGet (interestingAgentsIndex s) cid with
          | .error e => .error e
          | .ok ia =>
            .ok { location := s.location
                  case_id := cid
                  history_tracks := get_tracks_from_frame hist
                  current_tracks := get_tracks_from_frame curr
                  futural_tracks := get_tracks_from_frame fut
                  tracks_to_predict := ttp
                  interesting_agents := ia }

/-- `INTERACTIONScenario.render`: raises `ValueError` when
`case_id >= self._num_cases`, otherwise delegates to `get_case` (the plotting
itself is irrelevant to the verified properties and is modelled as `()`). -/
def render (s : Scenario) (cid : Int) : Except PyError Unit :=
  if (num_cases s : Int) ≤ cid then .error .valueError
  else (get_case s cid).map (fun _ => ())

/-- `INTERACTIONScenario.__getitem__`: `return self.get_case(case_id)`. -/
def getItem (s : Scenario) (cid : Int) : Except PyError INTERACTIONCase :=
  get_case s cid

/-- `INTERACTIONScenario.__len__`: `return self.num_cases`. -/
def lenScenario (s : Scenario) : Nat :=
  num_cases s

/-! ## `__init__`: split resolution and the track-file path -/

/-- Python `needle in hay` on strings: substring containment, i.e. the
needle's characters occur contiguously inside the haystack's. -/
def containsSub (needle hay : String) : Bool :=
  decide (needle.toList <:+: hay.toList)

/-- `Path(self._root).parts[-1]`; roots are non-empty paths, the default is
unreachable. -/
def lastPart (rootParts : List String) : String :=
  (rootParts.getLast?).getD ""

/-- The split-resolution prefix of `INTERACTIONScenario.__init__`: when no
split is supplied, dereference it from the last root segment by substring
checks for "train", "val", "test" in that order (raising `ValueError` when
none matches); then the `assert self._split in ["train", "val", "test"]`
(`AssertionError` on failure). -/
def resolveSplit (split : Option String) (rootParts : List String) :
    Except PyError String :=
  let derefed : Option String :=
    match split with
    | some sp => some sp
    | none =>
      let seg := lastPart rootParts
      if containsSub "train" seg then some "train"
      else if containsSub "val" seg then some "val"
      else if containsSub "test" seg then some "test"
      else none
  match derefed with
  | none => .error .valueError
  | some sp =>
    if sp = "train" ∨ sp = "val" ∨ sp = "test" then .ok sp
    else .error .assertionError

/-- `INTERACTIONScenario.track_file`: `{location}_obs.csv` under the root for
the test split, else `{location}_{split}.csv`; `Path.joinpath` modelled as
"/"-separated concatenation. -/
def track_file (root location split : String) : String :=
  let filename :=
    if split = "test" then location ++ "_obs.csv"
    else location ++ "_" ++ split ++ ".csv"
  root ++ "/" ++ filename

/-! ## Spec-side characterization of the train/val "to predict" rule -/

/-- The train/val qualification rule, stated on raw rows: the
`(case_id, track_id)` group exists, its minimum timestamp is 100, its maximum
timestamp is 4000 and its first-row agent type is CAR. -/
abbrev qualifiesTrainval (rows : List Row) (cid tid : Int) : Prop :=
  groupKeyRows rows (cid, tid) ≠ [] ∧
  minD ((groupKeyRows rows (cid, tid)).map Row.timestamp_ms) = 100 ∧
  maxD ((groupKeyRows rows (cid, tid)).map Row.timestamp_ms) = 4000 ∧
  headAgentType (groupKeyRows rows (cid, tid)) = AgentType.car

/-! ## Concrete fixtures used by counterexamples and witnesses -/

/-- A concrete CSV row with the given key columns; kinematic values zero. -/
def mkRow (cid tid ts : Int) (ty : AgentType) (ttp ia : Int) : Row :=
  { case_id := cid, track_id := tid, timestamp_ms := ts, agent_type := ty,
    x := 0, y := 0, vx := 0, vy := 0, psi_rad := 0,
    tracks_to_predict := ttp, interesting_agent := ia }

/-- A test-split scenario with a single case (id 0) holding one fully flagged
track with rows at timestamps 100, 1000 and 1100. -/
def wTestRows : List Row :=
  [mkRow 0 1 100 .car 1 1, mkRow 0 1 1000 .car 1 1, mkRow 0 1 1100 .car 1 1]

def wTestScenario : Scenario :=
  { location := "loc", split := "test", rows := wTestRows }

/-- The case `get_case wTestScenario 0` evaluates to. -/
def wTestCase : INTERACTIONCase :=
  { location := "loc"
    case_id := 0
    history_tracks :=
      [{ agent_id := 1, type := .car,
         motion_states :=
           [{ agent_id := 1, timestamp_ms := 100, x := 0, y := 0, vx := 0,
              vy := 0, psi_rad := 0 },
            { agent_id := 1, timestamp_ms := 1000, x := 0, y := 0, vx := 0,
              vy := 0, psi_rad := 0 }] }]
    current_tracks :=
      [{ agent_id := 1, type := .car,
         motion_states :=
           [{ agent_id := 1, timestamp_ms := 1000, x := 0, y := 0, vx := 0,
              vy := 0, psi_rad := 0 }] }]
    futural_tracks :=
      [{ agent_id := 1, type := .car,
         motion_states :=
           [{ agent_id := 1, timestamp_ms := 1100, x := 0, y := 0, vx := 0,
              vy := 0, psi_rad := 0 }] }]
    tracks_to_predict := [1]
    interesting_agents := [1] }

/-- Two rows of one track whose `agent_type` column differs between the rows:
first CAR, then PEDESTRIAN. -/
def wC2Rows : List Row :=
  [mkRow 0 1 100 .car 0 0, mkRow 0 1 200 .pedestrian 0 0]

/-- A train-split scenario: case 0 has a CAR track 1 and a PEDESTRIAN track 2,
both spanning timestamps 100..4000. -/
def wTrainRows : List Row :=
  [mkRow 0 1 100 .car 0 0, mkRow 0 1 4000 .car 0 0,
   mkRow 0 2 100 .pedestrian 0 0, mkRow 0 2 4000 .pedestrian 0 0]

def wTrainScenario : Scenario :=
  { location := "loc", split := "train", rows := wTrainRows }

/-- A test-split scenario whose only case has a flagged to-predict row but no
`interesting_agent == 1` row. -/
def wNoInterestingRows : List Row :=
  [mkRow 0 1 100 .car 1 0, mkRow 0 1 200 .car 1 0]

def wNoInterestingScenario : Scenario :=
  { location := "loc", split := "test", rows := wNoInterestingRows }

/-!
# Theorems

One theorem per claim of the specification, with witnesses applying the
hypothesis-bearing ones at concrete inputs.
-/

/-! ### Library lemmas: first-occurrence dedup and dict lookup -/

theorem mem_uniqueKeepAux {α : Type} [DecidableEq α] (l seen : List α) (b : α) :
    b ∈ uniqueKeepAux seen l ↔ b ∈ l ∧ b ∉ seen := by
  induction l generalizing seen with
  | nil => simp [uniqueKeepAux]
  | cons a rest ih =>
    by_cases ha : a ∈ seen
    · simp only [uniqueKeepAux, if_pos ha, ih, List.mem_cons]
      constructor
      · rintro ⟨h1, h2⟩
        exact ⟨Or.inr h1, h2⟩
      · rintro ⟨h1 | h1, h2⟩
        · subst h1
          exact absurd ha h2
        · exact ⟨h1, h2⟩
    · simp only [uniqueKeepAux, if_neg ha, List.mem_cons, ih]
      by_cases hb : b = a
      · subst hb
        simp [ha]
      · simp [hb]

theorem mem_uniqueKeep {α : Type} [DecidableEq α] (l : List α) (b : α) :
    b ∈ uniqueKeep l ↔ b ∈ l := by
  simp [uniqueKeep, mem_uniqueKeepAux]

theorem nodup_uniqueKeepAux {α : Type} [DecidableEq α] (l seen : List α) :
    (uniqueKeepAux seen l).Nodup := by
  induction l generalizing seen with
  | nil => simp [uniqueKeepAux]
  | cons a rest ih =>
    by_cases ha : a ∈ seen
    · simpa [uniqueKeepAux, if_pos ha] using ih seen
    · simp only [uniqueKeepAux, if_neg ha]
      refine List.nodup_cons.mpr ⟨?_, ih (a :: seen)⟩
      intro hmem
      have := (mem_uniqueKeepAux _ _ _).mp hmem
      simp at this

theorem nodup_uniqueKeep {α : Type} [DecidableEq α] (l : List α) :
    (uniqueKeep l).Nodup :=
  nodup_uniqueKeepAux l []

theorem length_uniqueKeep_eq_card {α : Type} [DecidableEq α] (l : List α) :
    (uniqueKeep l).length = l.toFinset.card := by
  have hset : (uniqueKeep l).toFinset = l.toFinset := by
    ext a
    simp [List.mem_toFinset, mem_uniqueKeep]
  calc (uniqueKeep l).length = (uniqueKeep l).toFinset.card :=
        (List.toFinset_card_of_nodup (nodup_uniqueKeep l)).symm
    _ = l.toFinset.card := by rw [hset]

@[simp] theorem dlookup_nil {α : Type} (key : Int) :
    dlookup ([] : List (Int × α)) key = none := rfl

@[simp] theorem dlookup_cons {α : Type} (k key : Int) (v : α)
    (rest : List (Int × α)) :
    dlookup ((k, v) :: rest) key =
      if k = key then some v else dlookup rest key := rfl

/-- Lookup in an association list built by tabulating a function over a key
list returns the tabulated value exactly on the listed keys. -/
theorem dlookup_map_keys {α : Type} (keys : List Int) (f : Int → α)
    (key : Int) :
    dlookup (keys.map (fun k => (k, f k))) key =
      if key ∈ keys then some (f key) else none := by
  induction keys with
  | nil => simp
  | cons k rest ih =>
    simp only [List.map_cons, dlookup_cons, ih, List.mem_cons]
    by_cases h : k = key
    · simp [h]
    · simp [h, Ne.symm h]

/-- With pairwise-distinct keys, a pair that is a member of the association
list is the one its key looks up to. -/
theorem dlookup_eq_of_mem {α : Type} (l : List (Int × α))
    (hnd : (l.map Prod.fst).Nodup) (k : Int) (v : α) (hmem : (k, v) ∈ l) :
    dlookup l k = some v := by
  induction l with
  | nil => simp at hmem
  | cons p rest ih =>
    obtain ⟨k', v'⟩ := p
    simp only [List.map_cons, List.nodup_cons] at hnd
    rcases List.mem_cons.mp hmem with heq | htail
    · obtain ⟨rfl, rfl⟩ := Prod.mk.inj heq.symm
      simp
    · have hne : k' ≠ k := by
        rintro rfl
        exact hnd.1 (List.mem_map.mpr ⟨(k', v), htail, rfl⟩)
      simpa [hne] using ih hnd.2 htail

/-! ### Characterization of the loop -/

theorem keys_upsertState (l : List (Int × List MotionState)) (k : Int)
    (v : MotionState) :
    (upsertState l k v).map Prod.fst =
      if k ∈ l.map Prod.fst then l.map Prod.fst
      else l.map Prod.fst ++ [k] := by
  induction l with
  | nil => simp [upsertState]
  | cons p rest ih =>
    obtain ⟨k', vs⟩ := p
    by_cases h : k' = k
    · subst h
      simp [upsertState]
    · simp only [upsertState, if_neg h, List.map_cons, ih, List.mem_cons]
      by_cases hmem : k ∈ rest.map Prod.fst
      · simp [hmem, Ne.symm h]
      · simp [hmem, Ne.symm h]

theorem dlookup_upsertState_self (l : List (Int × List MotionState)) (k : Int)
    (v : MotionState) :
    dlookup (upsertState l k v) k = some ((dlookup l k).getD [] ++ [v]) := by
  induction l with
  | nil => simp [upsertState]
  | cons p rest ih =>
    obtain ⟨k', vs⟩ := p
    by_cases h : k' = k
    · subst h
      simp [upsertState]
    · simp [upsertState, h, ih]

theorem dlookup_upsertState_other (l : List (Int × List MotionState))
    (k k' : Int) (v : MotionState) (hne : k' ≠ k) :
    dlookup (upsertState l k v) k' = dlookup l k' := by
  induction l with
  | nil => simp [upsertState, Ne.symm hne]
  | cons p rest ih =>
    obtain ⟨k'', vs⟩ := p
    by_cases h : k'' = k
    · subst h
      simp [upsertState, Ne.symm hne]
    · by_cases h' : k'' = k'
      · simp [upsertState, h, h', hne]
      · simp [upsertState, h, h', hne, ih]

theorem dlookup_upsertType_self (l : List (Int × AgentType)) (k : Int)
    (v : AgentType) :
    dlookup (upsertType l k v) k = some v := by
  induction l with
  | nil => simp [upsertType]
  | cons p rest ih =>
    obtain ⟨k', v'⟩ := p
    by_cases h : k' = k
    · subst h
      simp [upsertType]
    · simp [upsertType, h, ih]

theorem dlookup_upsertType_other (l : List (Int × AgentType)) (k k' : Int)
    (v : AgentType) (hne : k' ≠ k) :
    dlookup (upsertType l k v) k' = dlookup l k' := by
  induction l with
  | nil => simp [upsertType, Ne.symm hne]
  | cons p rest ih =>
    obtain ⟨k'', v'⟩ := p
    by_cases h : k'' = k
    · subst h
      simp [upsertType, Ne.symm hne]
    · by_cases h' : k'' = k'
      · simp [upsertType, h, h', hne]
      · simp [upsertType, h, h', hne, ih]

theorem mem_keys_buildAcc (rows : List Row) (acc : TrackAcc) (k : Int) :
    k ∈ (buildAcc rows acc).1.map Prod.fst ↔
      k ∈ acc.1.map Prod.fst ∨ k ∈ rows.map Row.track_id := by
  induction rows generalizing acc with
  | nil => simp [buildAcc]
  | cons r rest ih =>
    simp only [buildAcc, ih, trackStep, keys_upsertState, List.map_cons,
      List.mem_cons]
    by_cases hmem : r.track_id ∈ acc.1.map Prod.fst
    · simp only [if_pos hmem]
      constructor
      · rintro (h | h)
        · exact Or.inl h
        · exact Or.inr (Or.inr h)
      · rintro (h | rfl | h)
        · exact Or.inl h
        · exact Or.inl hmem
        · exact Or.inr h
    · simp only [if_neg hmem, List.mem_append, List.mem_singleton]
      tauto

theorem nodup_keys_buildAcc (rows : List Row) (acc : TrackAcc)
    (hnd : (acc.1.map Prod.fst).Nodup) :
    ((buildAcc rows acc).1.map Prod.fst).Nodup := by
  induction rows generalizing acc with
  | nil => exact hnd
  | cons r rest ih =>
    refine ih _ ?_
    simp only [trackStep, keys_upsertState]
    by_cases hmem : r.track_id ∈ acc.1.map Prod.fst
    · simpa [hmem] using hnd
    · simpa [hmem] using List.Nodup.append hnd (List.nodup_singleton _)
        (by simpa [List.disjoint_singleton] using hmem)

theorem dlookupD_state_buildAcc (rows : List Row) (acc : TrackAcc) (k : Int) :
    (dlookup (buildAcc rows acc).1 k).getD [] =
      (dlookup acc.1 k).getD [] ++
        (rows.filter (fun r => r.track_id == k)).map rowToMotionState := by
  induction rows generalizing acc with
  | nil => simp [buildAcc]
  | cons r rest ih =>
    simp only [buildAcc]
    rw [ih]
    by_cases h : r.track_id = k
    · simp [trackStep, h, dlookup_upsertState_self, List.filter_cons]
    · simp [trackStep, dlookup_upsertState_other _ _ _ _ (Ne.symm h),
        List.filter_cons, h]

theorem getLast?_cons_getD {α : Type} (a : α) (l : List α) :
    (a :: l).getLast? = some (l.getLast?.getD a) := by
  induction l generalizing a with
  | nil => rfl
  | cons b t ih =>
    rw [List.getLast?_cons_cons, ih b]
    rfl

theorem dlookup_type_buildAcc (rows : List Row) (acc : TrackAcc) (k : Int) :
    dlookup (buildAcc rows acc).2 k =
      match (rows.filter (fun r => r.track_id == k)).getLast? with
      | some r => some r.agent_type
      | none => dlookup acc.2 k := by
  induction rows generalizing acc with
  | nil => simp [buildAcc]
  | cons r rest ih =>
    simp only [buildAcc]
    rw [ih]
    by_cases h : r.track_id = k
    · simp only [List.filter_cons, h, beq_self_eq_true, if_pos,
        getLast?_cons_getD]
      cases hl : (rest.filter (fun r => r.track_id == k)).getLast? with
      | none =>
        simp [hl, trackStep, h, dlookup_upsertType_self]
      | some r' =>
        simp [hl]
    · simp only [List.filter_cons, beq_iff_eq, h, if_neg, ite_false]
      cases hl : (rest.filter (fun r => r.track_id == k)).getLast? with
      | none =>
        simp [hl, trackStep, dlookup_upsertType_other _ _ _ _ (Ne.symm h)]
      | some r' =>
        simp [hl]

/-! ### `get_tracks_from_frame` interface lemmas -/

theorem map_agentId_get_tracks_from_frame (rows : List Row) :
    (get_tracks_from_frame rows).map Track.agent_id =
      (buildAcc rows ([], [])).1.map Prod.fst := by
  simp [get_tracks_from_frame, List.map_map]

theorem mem_agentIds_iff (rows : List Row) (tid : Int) :
    tid ∈ (get_tracks_from_frame rows).map Track.agent_id ↔
      tid ∈ rows.map Row.track_id := by
  rw [map_agentId_get_tracks_from_frame]
  simpa using mem_keys_buildAcc rows ([], []) tid

theorem nodup_agentIds (rows : List Row) :
    ((get_tracks_from_frame rows).map Track.agent_id).Nodup := by
  rw [map_agentId_get_tracks_from_frame]
  exact nodup_keys_buildAcc rows ([], []) (by simp)

theorem motion_states_of_mem (rows : List Row) (t : Track)
    (hmem : t ∈ get_tracks_from_frame rows) :
    t.motion_states =
      (rows.filter (fun r => r.track_id == t.agent_id)).map rowToMotionState := by
  simp only [get_tracks_from_frame, List.mem_map] at hmem
  obtain ⟨kv, hkv, rfl⟩ := hmem
  have hnd : ((buildAcc rows ([], [])).1.map Prod.fst).Nodup :=
    nodup_keys_buildAcc rows ([], []) (by simp)
  have hlk : dlookup (buildAcc rows ([], [])).1 kv.1 = some kv.2 :=
    dlookup_eq_of_mem _ hnd kv.1 kv.2 (by simpa using hkv)
  have := dlookupD_state_buildAcc rows ([], []) kv.1
  rw [hlk] at this
  simpa using this

theorem type_of_mem (rows : List Row) (t : Track)
    (hmem : t ∈ get_tracks_from_frame rows) :
    ∃ r, (rows.filter (fun r => r.track_id == t.agent_id)).getLast? = some r ∧
      t.type = r.agent_type := by
  have hid : t.agent_id ∈ (get_tracks_from_frame rows).map Track.agent_id :=
    List.mem_map.mpr ⟨t, hmem, rfl⟩
  have hrow : t.agent_id ∈ rows.map Row.track_id := (mem_agentIds_iff _ _).mp hid
  obtain ⟨r₀, hr₀, hr₀id⟩ := List.mem_map.mp hrow
  have hne : (rows.filter (fun r => r.track_id == t.agent_id)) ≠ [] := by
    intro hnil
    have : r₀ ∈ rows.filter (fun r => r.track_id == t.agent_id) :=
      List.mem_filter.mpr ⟨hr₀, by simp [hr₀id]⟩
    simp [hnil] at this
  obtain ⟨r, hr⟩ := Option.ne_none_iff_exists'.mp
    (mt List.getLast?_eq_none_iff.mp hne)
  refine ⟨r, hr, ?_⟩
  simp only [get_tracks_from_frame, List.mem_map] at hmem
  obtain ⟨kv, hkv, rfl⟩ := hmem
  have htype := dlookup_type_buildAcc rows ([], []) kv.1
  simp only [lookupTypeD]
  have : (fun r => r.track_id == kv.1) =
      (fun r : Row =>
        r.track_id == (Track.mk kv.1 (lookupTypeD (buildAcc rows ([], [])).2 kv.1) kv.2).agent_id) := rfl
  rw [show (Track.mk kv.1 (lookupTypeD (buildAcc rows ([], [])).2 kv.1) kv.2).agent_id = kv.1 from rfl] at hr
  rw [hr] at htype
  simp only [lookupTypeD, htype]
  rfl

/-- C7: `scenario[case_id]` returns the same result as
`scenario.get_case(case_id)`, `len(scenario)` equals `scenario.num_cases`, and
`num_cases` is the number of distinct case ids in the input rows. -/
theorem C7_indexing_equiv (s : Scenario) (cid : Int) :
    getItem s cid = get_case s cid ∧
    lenScenario s = num_cases s ∧
    num_cases s = (s.rows.map Row.case_id).toFinset.card :=
  ⟨rfl, rfl, length_uniqueKeep_eq_card _⟩

/-- C9: the track-file accessor returns the root joined with
`{location}_obs.csv` for the test split and `{location}_{split}.csv`
otherwise. -/
theorem C9_track_file_name (root location split : String) :
    (split = "test" →
      track_file root location split = root ++ "/" ++ (location ++ "_obs.csv")) ∧
    (split ≠ "test" →
      track_file root location split =
        root ++ "/" ++ (location ++ "_" ++ split ++ ".csv")) := by
  constructor
  · intro h
    simp [track_file, h]
  · intro h
    simp [track_file, h]

/-- Witness for C9 at a concrete root, location and both split shapes. -/
theorem C9_track_file_name_witness :
    track_file "/root" "loc" "test" = "/root" ++ "/" ++ ("loc" ++ "_obs.csv") ∧
    track_file "/root" "loc" "train" =
      "/root" ++ "/" ++ ("loc" ++ "_" ++ "train" ++ ".csv") :=
  ⟨(C9_track_file_name "/root" "loc" "test").1 rfl,
   (C9_track_file_name "/root" "loc" "train").2 (by decide)⟩

/-- C3: for a valid case id, history holds exactly the case rows with
timestamp ≤ 1000, current exactly those with timestamp == 1000, future
exactly those with timestamp > 1000; current is contained in history, and
every case row falls in exactly one of history-minus-current, current,
future. -/
theorem C3_window_partition (rows : List Row) (cid : Int) (sub : List Row)
    (h : locCase rows cid = Except.ok sub) :
    ∃ hist curr fut,
      get_history rows cid = Except.ok hist ∧
      get_current rows cid = Except.ok curr ∧
      get_futural rows cid = Except.ok fut ∧
      (∀ r, r ∈ hist ↔ r ∈ sub ∧ r.timestamp_ms ≤ 1000) ∧
      (∀ r, r ∈ curr ↔ r ∈ sub ∧ r.timestamp_ms = 1000) ∧
      (∀ r, r ∈ fut ↔ r ∈ sub ∧ 1000 < r.timestamp_ms) ∧
      (∀ r ∈ curr, r ∈ hist) ∧
      (∀ r ∈ sub,
        (r ∈ hist ∧ r ∉ curr ∧ r ∉ fut) ∨
        (r ∈ curr ∧ r ∈ hist ∧ r ∉ fut) ∨
        (r ∈ fut ∧ r ∉ hist ∧ r ∉ curr)) := by
  refine ⟨sub.filter (fun r => decide (r.timestamp_ms ≤ 1000)),
    sub.filter (fun r => r.timestamp_ms == 1000),
    sub.filter (fun r => decide (r.timestamp_ms > 1000)),
    ?_, ?_, ?_, ?_, ?_, ?_, ?_, ?_⟩
  · rw [get_history, h]
    rfl
  · rw [get_current, h]
    rfl
  · rw [get_futural, h]
    rfl
  · intro r
    simp [List.mem_filter]
  · intro r
    simp [List.mem_filter]
  · intro r
    simp [List.mem_filter]
  · intro r hr
    rw [List.mem_filter] at hr ⊢
    refine ⟨hr.1, ?_⟩
    have : r.timestamp_ms = 1000 := by simpa using hr.2
    simp [this]
  · intro r hr
    rcases lt_trichotomy r.timestamp_ms 1000 with hlt | heq | hgt
    · left
      simp [List.mem_filter, hr]
      omega
    · right; left
      simp [List.mem_filter, hr]
      omega
    · right; right
      simp [List.mem_filter, hr]
      omega

/-- Witness for C3 on a concrete case with rows at timestamps 100, 1000,
1100. -/
theorem C3_window_partition_witness :
    ∃ hist curr fut,
      get_history wTestRows 0 = Except.ok hist ∧
      get_current wTestRows 0 = Except.ok curr ∧
      get_futural wTestRows 0 = Except.ok fut ∧
      (∀ r, r ∈ hist ↔ r ∈ wTestRows ∧ r.timestamp_ms ≤ 1000) ∧
      (∀ r, r ∈ curr ↔ r ∈ wTestRows ∧ r.timestamp_ms = 1000) ∧
      (∀ r, r ∈ fut ↔ r ∈ wTestRows ∧ 1000 < r.timestamp_ms) ∧
      (∀ r ∈ curr, r ∈ hist) ∧
      (∀ r ∈ wTestRows,
        (r ∈ hist ∧ r ∉ curr ∧ r ∉ fut) ∨
        (r ∈ curr ∧ r ∈ hist ∧ r ∉ fut) ∨
        (r ∈ fut ∧ r ∉ hist ∧ r ∉ curr)) :=
  C3_window_partition wTestRows 0 wTestRows (by decide)

/-- C2 counterexample: on a frame whose single track has agent-type CAR on its
first row and PEDESTRIAN on its last, the produced track's type is the
last-seen PEDESTRIAN, not the first-seen CAR claimed by the spec. -/
theorem C2_first_seen_counterexample :
    wC2Rows.map Row.agent_type = [AgentType.car, AgentType.pedestrian] ∧
    (get_tracks_from_frame wC2Rows).map Track.agent_id = [1] ∧
    (get_tracks_from_frame wC2Rows).map Track.type = [AgentType.pedestrian] ∧
    AgentType.pedestrian ≠ AgentType.car := by decide

/-- C2 (amended): `get_tracks_from_frame` returns exactly one track per
distinct track id of the frame, whose motion states are the track's rows in
row order and whose type is the last-seen agent type of those rows; on an
empty row set it returns the empty list. -/
theorem C2_reshape (rows : List Row) :
    get_tracks_from_frame ([] : List Row) = [] ∧
    ((get_tracks_from_frame rows).map Track.agent_id).Nodup ∧
    (∀ tid : Int,
      tid ∈ (get_tracks_from_frame rows).map Track.agent_id ↔
        tid ∈ rows.map Row.track_id) ∧
    (∀ t ∈ get_tracks_from_frame rows,
      t.motion_states =
        (rows.filter (fun r => r.track_id == t.agent_id)).map rowToMotionState ∧
      ∃ r, (rows.filter (fun r => r.track_id == t.agent_id)).getLast? = some r ∧
        t.type = r.agent_type) :=
  ⟨rfl, nodup_agentIds rows, fun tid => mem_agentIds_iff rows tid,
   fun t ht => ⟨motion_states_of_mem rows t ht, type_of_mem rows t ht⟩⟩

/-- Witness for C2 (amended) on a concrete two-row frame. -/
theorem C2_reshape_witness :
    get_tracks_from_frame ([] : List Row) = [] ∧
    ((get_tracks_from_frame wC2Rows).map Track.agent_id).Nodup ∧
    (∀ tid : Int,
      tid ∈ (get_tracks_from_frame wC2Rows).map Track.agent_id ↔
        tid ∈ wC2Rows.map Row.track_id) ∧
    (∀ t ∈ get_tracks_from_frame wC2Rows,
      t.motion_states =
        (wC2Rows.filter (fun r => r.track_id == t.agent_id)).map rowToMotionState ∧
      ∃ r, (wC2Rows.filter (fun r => r.track_id == t.agent_id)).getLast? = some r ∧
        t.type = r.agent_type) :=
  C2_reshape wC2Rows

/-- C6: with no explicit split, the split is dereferenced from the last root
segment by substring checks for "train", "val", "test" in that order, failing
with the configuration `ValueError` when none occurs; an explicit split
outside {train, val, test} fails the assertion. -/
theorem C6_split_resolution (rootParts : List String) (seg : String)
    (h : rootParts.getLast? = some seg) :
    (("train".toList <:+: seg.toList) →
      resolveSplit none rootParts = Except.ok "train") ∧
    (¬ ("train".toList <:+: seg.toList) → ("val".toList <:+: seg.toList) →
      resolveSplit none rootParts = Except.ok "val") ∧
    (¬ ("train".toList <:+: seg.toList) → ¬ ("val".toList <:+: seg.toList) →
      ("test".toList <:+: seg.toList) →
      resolveSplit none rootParts = Except.ok "test") ∧
    (¬ ("train".toList <:+: seg.toList) → ¬ ("val".toList <:+: seg.toList) →
      ¬ ("test".toList <:+: seg.toList) →
      resolveSplit none rootParts = Except.error PyError.valueError) ∧
    (∀ sp, sp = "train" ∨ sp = "val" ∨ sp = "test" →
      resolveSplit (some sp) rootParts = Except.ok sp) ∧
    (∀ sp, sp ≠ "train" → sp ≠ "val" → sp ≠ "test" →
      resolveSplit (some sp) rootParts = Except.error PyError.assertionError) := by
  have hseg : lastPart rootParts = seg := by
    simp [lastPart, h]
  refine ⟨?_, ?_, ?_, ?_, ?_, ?_⟩
  · intro ht
    have ht' : containsSub "train" seg = true := by
      simpa [containsSub] using ht
    simp [resolveSplit, hseg, ht']
  · intro ht hv
    have ht' : containsSub "train" seg = false := by
      simpa [containsSub] using ht
    have hv' : containsSub "val" seg = true := by
      simpa [containsSub] using hv
    simp [resolveSplit, hseg, ht', hv']
  · intro ht hv hx
    have ht' : containsSub "train" seg = false := by
      simpa [containsSub] using ht
    have hv' : containsSub "val" seg = false := by
      simpa [containsSub] using hv
    have hx' : containsSub "test" seg = true := by
      simpa [containsSub] using hx
    simp [resolveSplit, hseg, ht', hv', hx']
  · intro ht hv hx
    have ht' : containsSub "train" seg = false := by
      simpa [containsSub] using ht
    have hv' : containsSub "val" seg = false := by
      simpa [containsSub] using hv
    have hx' : containsSub "test" seg = false := by
      simpa [containsSub] using hx
    simp [resolveSplit, hseg, ht', hv', hx']
  · rintro sp (rfl | rfl | rfl) <;> simp [resolveSplit]
  · intro sp h1 h2 h3
    simp [resolveSplit, h1, h2, h3]

/-- Witness for C6: a root ending in a "train"-containing directory resolves
to the train split, and a root matching none of the substrings raises the
configuration error. -/
theorem C6_split_resolution_witness :
    resolveSplit none ["data", "interaction_train_set"] = Except.ok "train" ∧
    resolveSplit none ["data", "foo"] = Except.error PyError.valueError :=
  ⟨(C6_split_resolution ["data", "interaction_train_set"]
      "interaction_train_set" rfl).1 (by decide),
   (C6_split_resolution ["data", "foo"] "foo" rfl).2.2.2.1
      (by decide) (by decide) (by decide)⟩

/-! ### Error propagation through `get_case` -/

theorem locCase_error_eq (rows : List Row) (cid : Int) (e : PyError)
    (h : locCase rows cid = Except.error e) : e = PyError.keyError := by
  by_cases hc : caseRows rows cid = []
  · rw [locCase, if_pos hc] at h
    exact (Except.error.inj h).symm
  · rw [locCase, if_neg hc] at h
    exact absurd h (by simp)

theorem map_locCase_error {β : Type} (rows : List Row) (cid : Int)
    (f : List Row → β) (e : PyError)
    (h : (locCase rows cid).map f = Except.error e) : e = PyError.keyError := by
  cases hl : locCase rows cid with
  | ok a =>
    rw [hl] at h
    exact absurd h (by simp [Except.map])
  | error e' =>
    rw [hl] at h
    have he : e' = e := by simpa [Except.map] using h
    exact he ▸ locCase_error_eq rows cid e' hl

theorem get_history_error_eq (rows : List Row) (cid : Int) (e : PyError)
    (h : get_history rows cid = Except.error e) : e = PyError.keyError := by
  rw [get_history] at h
  exact map_locCase_error rows cid _ e h

theorem get_current_error_eq (rows : List Row) (cid : Int) (e : PyError)
    (h : get_current rows cid = Except.error e) : e = PyError.keyError := by
  rw [get_current] at h
  exact map_locCase_error rows cid _ e h

theorem get_futural_error_eq (rows : List Row) (cid : Int) (e : PyError)
    (h : get_futural rows cid = Except.error e) : e = PyError.keyError := by
  rw [get_futural] at h
  exact map_locCase_error rows cid _ e h

theorem dictGet_error_eq (d : List (Int × List Int)) (k : Int) (e : PyError)
    (h : dictGet d k = Except.error e) : e = PyError.keyError := by
  rw [dictGet] at h
  cases hd : dlookup d k with
  | some v =>
    rw [hd] at h
    exact absurd h (by simp)
  | none =>
    rw [hd] at h
    exact (Except.error.inj h).symm

theorem get_case_error_eq (s : Scenario) (cid : Int) (e : PyError)
    (h : get_case s cid = Except.error e) : e = PyError.keyError := by
  rw [get_case] at h
  cases h1 : get_history s.rows cid with
  | error e1 =>
    rw [h1] at h
    injection h with he
    rw [← he]
    exact get_history_error_eq s.rows cid e1 h1
  | ok hist =>
    rw [h1] at h
    cases h2 : get_current s.rows cid with
    | error e2 =>
      rw [h2] at h
      injection h with he
      rw [← he]
      exact get_current_error_eq s.rows cid e2 h2
    | ok curr =>
      rw [h2] at h
      cases h3 : get_futural s.rows cid with
      | error e3 =>
        rw [h3] at h
        injection h with he
        rw [← he]
        exact get_futural_error_eq s.rows cid e3 h3
      | ok fut =>
        rw [h3] at h
        cases h4 : dictGet (tracksToPredictIndex s) cid with
        | error e4 =>
          rw [h4] at h
          injection h with he
          rw [← he]
          exact dictGet_error_eq _ _ e4 h4
        | ok ttp =>
          rw [h4] at h
          cases h5 : dictGet (interestingAgentsIndex s) cid with
          | error e5 =>
            rw [h5] at h
            injection h with he
            rw [← he]
            exact dictGet_error_eq _ _ e5 h5
          | ok ia =>
            rw [h5] at h
            exact absurd h (by simp)

/-- C1 counterexample: a test-split scenario with one case (`num_cases = 1`);
`get_case 1`, with `1 ≥ num_cases`, does not fail with the range `ValueError`
of the error taxonomy but with a `KeyError` — the range check does not live in
`get_case`. -/
theorem C1_range_check_counterexample :
    (num_cases wTestScenario : Int) ≤ 1 ∧
    get_case wTestScenario 1 = Except.error PyError.keyError ∧
    PyError.keyError ≠ PyError.valueError := by decide

/-- C1 (amended): the `case_id ≥ num_cases` range check is performed in
`render`, not in `get_case`: `render` fails with the range `ValueError`
exactly when `case_id ≥ num_cases`, while `get_case` never raises the range
error — any failure it raises is a `KeyError` from its lookups. -/
theorem C1_range_check_location (s : Scenario) (cid : Int) :
    (render s cid = Except.error PyError.valueError ↔
      (num_cases s : Int) ≤ cid) ∧
    (∀ e, get_case s cid = Except.error e → e = PyError.keyError) := by
  refine ⟨⟨?_, ?_⟩, fun e h => get_case_error_eq s cid e h⟩
  · intro hr
    by_contra hlt
    rw [render, if_neg hlt] at hr
    cases hg : get_case s cid with
    | ok c =>
      rw [hg] at hr
      exact absurd hr (by simp [Except.map])
    | error e =>
      rw [hg] at hr
      have h1 : e = PyError.valueError := by
        simpa [Except.map] using hr
      have h2 : e = PyError.keyError := get_case_error_eq s cid e hg
      rw [h1] at h2
      exact PyError.noConfusion h2
  · intro hle
    rw [render, if_pos hle]

/-- Witness for C1 (amended) at a concrete scenario and out-of-range id. -/
theorem C1_range_check_location_witness :
    (render wTestScenario 1 = Except.error PyError.valueError ↔
      (num_cases wTestScenario : Int) ≤ 1) ∧
    (∀ e, get_case wTestScenario 1 = Except.error e → e = PyError.keyError) :=
  C1_range_check_location wTestScenario 1

/-! ### The two per-case indices -/

theorem dlookup_testFlagIndex (rows : List Row) (flag : Row → Int) (cid : Int) :
    dlookup (testFlagIndex rows flag) cid =
      if cid ∈ (testQual rows flag).map Row.case_id
      then some (uniqueKeep (((testQual rows flag).filter
        (fun r => r.case_id == cid)).map Row.track_id))
      else none := by
  rw [testFlagIndex, dlookup_map_keys]
  simp [mem_uniqueKeep]

theorem testFlagIndex_mem (rows : List Row) (flag : Row → Int) (cid tid : Int) :
    (∃ l, dlookup (testFlagIndex rows flag) cid = some l ∧ tid ∈ l) ↔
      ∃ r ∈ rows, r.case_id = cid ∧ r.track_id = tid ∧ flag r = 1 := by
  rw [dlookup_testFlagIndex]
  by_cases hc : cid ∈ (testQual rows flag).map Row.case_id
  · simp only [if_pos hc, Option.some.injEq]
    constructor
    · rintro ⟨l, rfl, htid⟩
      rw [mem_uniqueKeep] at htid
      obtain ⟨r, hr, rfl⟩ := List.mem_map.mp htid
      obtain ⟨hq, hcid⟩ := List.mem_filter.mp hr
      obtain ⟨hrow, hflag⟩ := List.mem_filter.mp hq
      exact ⟨r, hrow, by simpa using hcid, rfl, by simpa using hflag⟩
    · rintro ⟨r, hrow, hcid, rfl, hflag⟩
      refine ⟨_, rfl, ?_⟩
      rw [mem_uniqueKeep]
      exact List.mem_map.mpr ⟨r, List.mem_filter.mpr
        ⟨List.mem_filter.mpr ⟨hrow, by simp [hflag]⟩, by simp [hcid]⟩, rfl⟩
  · simp only [if_neg hc]
    constructor
    · rintro ⟨l, hl, _⟩
      cases hl
    · rintro ⟨r, hrow, hcid, htid, hflag⟩
      exact absurd (List.mem_map.mpr ⟨r,
        List.mem_filter.mpr ⟨hrow, by simp [hflag]⟩, hcid⟩) hc

theorem testFlagIndex_isSome (rows : List Row) (flag : Row → Int) (cid : Int) :
    (∃ l, dlookup (testFlagIndex rows flag) cid = some l) ↔
      ∃ r ∈ rows, r.case_id = cid ∧ flag r = 1 := by
  rw [dlookup_testFlagIndex]
  by_cases hc : cid ∈ (testQual rows flag).map Row.case_id
  · simp only [if_pos hc, Option.some.injEq]
    constructor
    · intro _
      obtain ⟨r, hr, hcid⟩ := List.mem_map.mp hc
      obtain ⟨hrow, hflag⟩ := List.mem_filter.mp hr
      exact ⟨r, hrow, hcid, by simpa using hflag⟩
    · intro _
      exact ⟨_, rfl⟩
  · simp only [if_neg hc]
    constructor
    · rintro ⟨l, hl⟩
      cases hl
    · rintro ⟨r, hrow, hcid, hflag⟩
      exact absurd (List.mem_map.mpr ⟨r,
        List.mem_filter.mpr ⟨hrow, by simp [hflag]⟩, hcid⟩) hc

theorem testFlagIndex_nodup (rows : List Row) (flag : Row → Int) (cid : Int)
    (l : List Int) (h : dlookup (testFlagIndex rows flag) cid = some l) :
    l.Nodup := by
  rw [dlookup_testFlagIndex] at h
  by_cases hc : cid ∈ (testQual rows flag).map Row.case_id
  · rw [if_pos hc] at h
    rw [← Option.some.inj h]
    exact nodup_uniqueKeep _
  · rw [if_neg hc] at h
    cases h

theorem groupKeyRows_ne_nil (rows : List Row) (ct : Int × Int) :
    groupKeyRows rows ct ≠ [] ↔
      ct ∈ rows.map (fun r => (r.case_id, r.track_id)) := by
  constructor
  · intro hne
    cases hg : groupKeyRows rows ct with
    | nil => exact absurd hg hne
    | cons r rest =>
      have hr : r ∈ groupKeyRows rows ct := by
        rw [hg]
        exact List.mem_cons_self r rest
      obtain ⟨hrow, hkey⟩ := List.mem_filter.mp hr
      exact List.mem_map.mpr ⟨r, hrow, by simpa using hkey⟩
  · intro hmem hnil
    obtain ⟨r, hrow, hkey⟩ := List.mem_map.mp hmem
    have : r ∈ groupKeyRows rows ct :=
      List.mem_filter.mpr ⟨hrow, by simp [hkey]⟩
    simp [hnil] at this

theorem mem_trainvalQual_iff (rows : List Row) (cid tid : Int) :
    (∃ g ∈ trainvalQual rows, g.case_id = cid ∧ g.track_id = tid) ↔
      qualifiesTrainval rows cid tid := by
  constructor
  · rintro ⟨g, hg, hcid, htid⟩
    obtain ⟨hgs, hpred⟩ := List.mem_filter.mp hg
    obtain ⟨ct, hct, rfl⟩ := List.mem_map.mp hgs
    obtain ⟨c, t⟩ := ct
    have hc : c = cid := hcid
    have ht : t = tid := htid
    subst hc
    subst ht
    rw [mem_uniqueKeep] at hct
    simp only [mkStat, Bool.and_eq_true, beq_iff_eq] at hpred
    exact ⟨(groupKeyRows_ne_nil rows (c, t)).mpr hct,
      hpred.1.1, hpred.1.2, hpred.2⟩
  · rintro ⟨hne, hmin, hmax, hty⟩
    refine ⟨mkStat rows (cid, tid), ?_, rfl, rfl⟩
    rw [trainvalQual, List.mem_filter]
    refine ⟨?_, ?_⟩
    · rw [groupStats]
      exact List.mem_map.mpr ⟨(cid, tid),
        (mem_uniqueKeep _ _).mpr ((groupKeyRows_ne_nil rows (cid, tid)).mp hne),
        rfl⟩
    · simp [mkStat, hmin, hmax, hty]

theorem dlookup_trainval (rows : List Row) (cid : Int) :
    dlookup (trainvalTracksToPredict rows) cid =
      if cid ∈ (trainvalQual rows).map GroupStat.case_id
      then some (((trainvalQual rows).filter
        (fun g => g.case_id == cid)).map GroupStat.track_id)
      else none := by
  rw [trainvalTracksToPredict, dlookup_map_keys]
  simp [mem_uniqueKeep]

theorem trainval_mem (rows : List Row) (cid tid : Int) :
    (∃ l, dlookup (trainvalTracksToPredict rows) cid = some l ∧ tid ∈ l) ↔
      qualifiesTrainval rows cid tid := by
  rw [dlookup_trainval, ← mem_trainvalQual_iff]
  by_cases hc : cid ∈ (trainvalQual rows).map GroupStat.case_id
  · simp only [if_pos hc, Option.some.injEq]
    constructor
    · rintro ⟨l, rfl, htid⟩
      obtain ⟨g, hg, rfl⟩ := List.mem_map.mp htid
      obtain ⟨hq, hcid⟩ := List.mem_filter.mp hg
      exact ⟨g, hq, by simpa using hcid, rfl⟩
    · rintro ⟨g, hg, hcid, rfl⟩
      exact ⟨_, rfl, List.mem_map.mpr ⟨g,
        List.mem_filter.mpr ⟨hg, by simp [hcid]⟩, rfl⟩⟩
  · simp only [if_neg hc]
    constructor
    · rintro ⟨l, hl, _⟩
      cases hl
    · rintro ⟨g, hg, hcid, _⟩
      exact absurd (List.mem_map.mpr ⟨g, hg, hcid⟩) hc

theorem trainval_isSome (rows : List Row) (cid : Int) :
    (∃ l, dlookup (trainvalTracksToPredict rows) cid = some l) ↔
      ∃ tid, qualifiesTrainval rows cid tid := by
  constructor
  · rintro ⟨l, hl⟩
    rw [dlookup_trainval] at hl
    by_cases hc : cid ∈ (trainvalQual rows).map GroupStat.case_id
    · obtain ⟨g, hg, hcid⟩ := List.mem_map.mp hc
      exact ⟨g.track_id, (mem_trainvalQual_iff rows cid g.track_id).mp
        ⟨g, hg, hcid, rfl⟩⟩
    · rw [if_neg hc] at hl
      cases hl
  · rintro ⟨tid, hq⟩
    obtain ⟨l, hl, _⟩ := (trainval_mem rows cid tid).mpr hq
    exact ⟨l, hl⟩

/-- C4: in a train/val scenario, `track_id` appears in
`tracks_to_predict[case_id]` exactly when its `(case_id, track_id)` group
exists with minimum timestamp 100, maximum timestamp 4000 and agent type CAR
(first row of the group); in particular a PEDESTRIAN track with the same
timestamp range is excluded. -/
theorem C4_trainval_tracks_to_predict (s : Scenario) (h : s.split ≠ "test")
    (cid tid : Int) :
    (∃ l, dlookup (tracksToPredictIndex s) cid = some l ∧ tid ∈ l) ↔
      qualifiesTrainval s.rows cid tid := by
  rw [tracksToPredictIndex, if_neg h]
  exact trainval_mem s.rows cid tid

/-- Witness for C4: in the concrete train scenario, the CAR track 1 spanning
100..4000 is to predict and the PEDESTRIAN track 2 with the same span is
not. -/
theorem C4_trainval_tracks_to_predict_witness :
    (∃ l, dlookup (tracksToPredictIndex wTrainScenario) 0 = some l ∧
      (1 : Int) ∈ l) ∧
    ¬ (∃ l, dlookup (tracksToPredictIndex wTrainScenario) 0 = some l ∧
      (2 : Int) ∈ l) :=
  ⟨(C4_trainval_tracks_to_predict wTrainScenario (by decide) 0 1).mpr
      (by decide),
   fun hl => absurd
      ((C4_trainval_tracks_to_predict wTrainScenario (by decide) 0 2).mp hl)
      (by decide)⟩

/-- C5: in a test scenario, a track is in `tracks_to_predict[case_id]` exactly
when one of its rows in that case has `tracks_to_predict == 1`, in
`interesting_agents[case_id]` exactly when one has `interesting_agent == 1`,
and both per-case lists are deduplicated. -/
theorem C5_test_indices (s : Scenario) (h : s.split = "test") (cid tid : Int) :
    ((∃ l, dlookup (tracksToPredictIndex s) cid = some l ∧ tid ∈ l) ↔
      ∃ r ∈ s.rows, r.case_id = cid ∧ r.track_id = tid ∧
        r.tracks_to_predict = 1) ∧
    ((∃ l, dlookup (interestingAgentsIndex s) cid = some l ∧ tid ∈ l) ↔
      ∃ r ∈ s.rows, r.case_id = cid ∧ r.track_id = tid ∧
        r.interesting_agent = 1) ∧
    (∀ l, dlookup (tracksToPredictIndex s) cid = some l → l.Nodup) ∧
    (∀ l, dlookup (interestingAgentsIndex s) cid = some l → l.Nodup) := by
  rw [tracksToPredictIndex, if_pos h, interestingAgentsIndex, if_pos h]
  exact ⟨testFlagIndex_mem s.rows Row.tracks_to_predict cid tid,
    testFlagIndex_mem s.rows Row.interesting_agent cid tid,
    fun l => testFlagIndex_nodup s.rows Row.tracks_to_predict cid l,
    fun l => testFlagIndex_nodup s.rows Row.interesting_agent cid l⟩

/-- Witness for C5 on the concrete test scenario whose rows carry both
flags. -/
theorem C5_test_indices_witness :
    (∃ l, dlookup (tracksToPredictIndex wTestScenario) 0 = some l ∧
      (1 : Int) ∈ l) ∧
    (∃ l, dlookup (interestingAgentsIndex wTestScenario) 0 = some l ∧
      (1 : Int) ∈ l) :=
  ⟨((C5_test_indices wTestScenario rfl 0 1).1).mpr (by decide),
   ((C5_test_indices wTestScenario rfl 0 1).2.1).mpr (by decide)⟩

/-! ### Decomposing a successful `get_case` -/

theorem dictGet_ok (d : List (Int × List Int)) (k : Int) (v : List Int)
    (h : dictGet d k = Except.ok v) : dlookup d k = some v := by
  rw [dictGet] at h
  cases hd : dlookup d k with
  | some w =>
    rw [hd] at h
    rw [Except.ok.inj h]
  | none =>
    rw [hd] at h
    cases h

theorem locCase_ok_eq (rows : List Row) (cid : Int) (sub : List Row)
    (h : locCase rows cid = Except.ok sub) : sub = caseRows rows cid := by
  by_cases hc : caseRows rows cid = []
  · rw [locCase, if_pos hc] at h
    cases h
  · rw [locCase, if_neg hc] at h
    exact (Except.ok.inj h).symm

theorem caseRows_ne_nil (rows : List Row) (cid : Int) :
    caseRows rows cid ≠ [] ↔ ∃ r ∈ rows, r.case_id = cid := by
  constructor
  · intro hne
    cases hg : caseRows rows cid with
    | nil => exact absurd hg hne
    | cons r rest =>
      have hr : r ∈ caseRows rows cid := by
        rw [hg]
        exact List.mem_cons_self r rest
      obtain ⟨hrow, hkey⟩ := List.mem_filter.mp hr
      exact ⟨r, hrow, by simpa using hkey⟩
  · rintro ⟨r, hrow, hcid⟩ hnil
    have : r ∈ caseRows rows cid :=
      List.mem_filter.mpr ⟨hrow, by simp [hcid]⟩
    simp [hnil] at this

theorem get_history_ok_eq (rows : List Row) (cid : Int) (w : List Row)
    (h : get_history rows cid = Except.ok w) :
    w = (caseRows rows cid).filter (fun r => decide (r.timestamp_ms ≤ 1000)) := by
  rw [get_history] at h
  cases hl : locCase rows cid with
  | error e =>
    rw [hl] at h
    exact absurd h (by simp [Except.map])
  | ok sub =>
    rw [hl] at h
    have hmap : (Except.ok (sub.filter (fun r => decide (r.timestamp_ms ≤ 1000))) :
        Except PyError (List Row)) = Except.ok w := h
    rw [← Except.ok.inj hmap, locCase_ok_eq rows cid sub hl]

theorem get_current_ok_eq (rows : List Row) (cid : Int) (w : List Row)
    (h : get_current rows cid = Except.ok w) :
    w = (caseRows rows cid).filter (fun r => r.timestamp_ms == 1000) := by
  rw [get_current] at h
  cases hl : locCase rows cid with
  | error e =>
    rw [hl] at h
    exact absurd h (by simp [Except.map])
  | ok sub =>
    rw [hl] at h
    have hmap : (Except.ok (sub.filter (fun r => r.timestamp_ms == 1000)) :
        Except PyError (List Row)) = Except.ok w := h
    rw [← Except.ok.inj hmap, locCase_ok_eq rows cid sub hl]

theorem get_futural_ok_eq (rows : List Row) (cid : Int) (w : List Row)
    (h : get_futural rows cid = Except.ok w) :
    w = (caseRows rows cid).filter (fun r => decide (r.timestamp_ms > 1000)) := by
  rw [get_futural] at h
  cases hl : locCase rows cid with
  | error e =>
    rw [hl] at h
    exact absurd h (by simp [Except.map])
  | ok sub =>
    rw [hl] at h
    have hmap : (Except.ok (sub.filter (fun r => decide (r.timestamp_ms > 1000))) :
        Except PyError (List Row)) = Except.ok w := h
    rw [← Except.ok.inj hmap, locCase_ok_eq rows cid sub hl]

theorem get_case_ok_components (s : Scenario) (cid : Int)
    (c : INTERACTIONCase) (h : get_case s cid = Except.ok c) :
    ∃ hist curr fut ttp ia,
      get_history s.rows cid = Except.ok hist ∧
      get_current s.rows cid = Except.ok curr ∧
      get_futural s.rows cid = Except.ok fut ∧
      dictGet (tracksToPredictIndex s) cid = Except.ok ttp ∧
      dictGet (interestingAgentsIndex s) cid = Except.ok ia ∧
      c = { location := s.location
            case_id := cid
            history_tracks := get_tracks_from_frame hist
            current_tracks := get_tracks_from_frame curr
            futural_tracks := get_tracks_from_frame fut
            tracks_to_predict := ttp
            interesting_agents := ia } := by
  rw [get_case] at h
  cases h1 : get_history s.rows cid with
  | error e1 =>
    rw [h1] at h
    cases h
  | ok hist =>
    rw [h1] at h
    cases h2 : get_current s.rows cid with
    | error e2 =>
      rw [h2] at h
      cases h
    | ok curr =>
      rw [h2] at h
      cases h3 : get_futural s.rows cid with
      | error e3 =>
        rw [h3] at h
        cases h
      | ok fut =>
        rw [h3] at h
        cases h4 : dictGet (tracksToPredictIndex s) cid with
        | error e4 =>
          rw [h4] at h
          cases h
        | ok ttp =>
          rw [h4] at h
          cases h5 : dictGet (interestingAgentsIndex s) cid with
          | error e5 =>
            rw [h5] at h
            cases h
          | ok ia =>
            rw [h5] at h
            exact ⟨hist, curr, fut, ttp, ia, rfl, rfl, rfl, rfl, rfl,
              (Except.ok.inj h).symm⟩

theorem scenario_split_mk (loc sp : String) (rows : List Row) :
    (Scenario.mk loc sp rows).split = sp := rfl

theorem scenario_rows_mk (loc sp : String) (rows : List Row) :
    (Scenario.mk loc sp rows).rows = rows := rfl

/-- C10: the derived index dicts hold keys only for case ids with a
qualifying row/track, and `get_case` on an in-range case id whose case lacks
a qualifying row raises a `KeyError` instead of returning a case with an
empty list: in a test scenario when the case has no `interesting_agent == 1`
row, and in a train scenario when the case has no qualifying CAR track. -/
theorem C10_index_key_errors (rows : List Row) (loc : String) (cid : Int) :
    (∀ flag : Row → Int,
      (∃ l, dlookup (testFlagIndex rows flag) cid = some l) ↔
        ∃ r ∈ rows, r.case_id = cid ∧ flag r = 1) ∧
    ((∃ l, dlookup (trainvalTracksToPredict rows) cid = some l) ↔
      ∃ tid, qualifiesTrainval rows cid tid) ∧
    ((∃ r ∈ rows, r.case_id = cid) →
      (¬ ∃ r ∈ rows, r.case_id = cid ∧ r.interesting_agent = 1) →
      get_case { location := loc, split := "test", rows := rows } cid =
        Except.error PyError.keyError) ∧
    ((∃ r ∈ rows, r.case_id = cid) →
      (¬ ∃ tid, qualifiesTrainval rows cid tid) →
      get_case { location := loc, split := "train", rows := rows } cid =
        Except.error PyError.keyError) := by
  refine ⟨fun flag => testFlagIndex_isSome rows flag cid,
    trainval_isSome rows cid, ?_, ?_⟩
  · intro _ hnone
    cases hg : get_case { location := loc, split := "test", rows := rows } cid with
    | ok c =>
      obtain ⟨hist, curr, fut, ttp, ia, _, _, _, _, h5, _⟩ :=
        get_case_ok_components _ cid c hg
      rw [show interestingAgentsIndex
          { location := loc, split := "test", rows := rows } =
          testFlagIndex rows Row.interesting_agent from by
        rw [interestingAgentsIndex, if_pos rfl]] at h5
      have := (testFlagIndex_isSome rows Row.interesting_agent cid).mp
        ⟨ia, dictGet_ok _ _ _ h5⟩
      exact absurd this hnone
    | error e =>
      rw [get_case_error_eq _ cid e hg]
  · intro _ hnone
    cases hg : get_case { location := loc, split := "train", rows := rows } cid with
    | ok c =>
      obtain ⟨hist, curr, fut, ttp, ia, _, _, _, h4, _, _⟩ :=
        get_case_ok_components _ cid c hg
      rw [show tracksToPredictIndex
          { location := loc, split := "train", rows := rows } =
          trainvalTracksToPredict rows from by
        rw [tracksToPredictIndex, scenario_split_mk, scenario_rows_mk,
          if_neg (show ("train" : String) ≠ "test" by decide)]] at h4
      have := (trainval_isSome rows cid).mp ⟨ttp, dictGet_ok _ _ _ h4⟩
      exact absurd this hnone
    | error e =>
      rw [get_case_error_eq _ cid e hg]

/-- Witness for C10: the concrete test case with flagged to-predict rows but
no interesting rows key-errors out of `get_case`. -/
theorem C10_index_key_errors_witness :
    get_case wNoInterestingScenario 0 = Except.error PyError.keyError :=
  (C10_index_key_errors wNoInterestingRows "loc" 0).2.2.1 (by decide) (by decide)

/-! ### Track invariants -/

theorem gtff_invariant (rows : List Row)
    (hs : rows.Pairwise (fun a b =>
      a.track_id = b.track_id → a.timestamp_ms < b.timestamp_ms)) :
    ∀ t ∈ get_tracks_from_frame rows,
      (∀ ms ∈ t.motion_states, ms.agent_id = t.agent_id) ∧
      t.motion_states.Pairwise
        (fun a b => a.timestamp_ms < b.timestamp_ms) := by
  intro t ht
  have hms := motion_states_of_mem rows t ht
  constructor
  · intro ms hmem
    rw [hms] at hmem
    obtain ⟨r, hr, rfl⟩ := List.mem_map.mp hmem
    have htr : r.track_id = t.agent_id := by
      simpa using (List.mem_filter.mp hr).2
    simpa [rowToMotionState] using htr
  · rw [hms, List.pairwise_map]
    have hf : (rows.filter (fun r => r.track_id == t.agent_id)).Pairwise
        (fun a b => a.track_id = b.track_id → a.timestamp_ms < b.timestamp_ms) :=
      List.Pairwise.sublist (List.filter_sublist rows) hs
    refine List.Pairwise.imp_of_mem ?_ hf
    intro a b ha hb hR
    have hta : a.track_id = t.agent_id := by
      simpa using (List.mem_filter.mp ha).2
    have htb : b.track_id = t.agent_id := by
      simpa using (List.mem_filter.mp hb).2
    simpa [rowToMotionState] using hR (hta.trans htb.symm)

/-- C8: when the scenario's rows are in increasing timestamp order per
case (strictly, within each track of a case), every track of every window of
`get_case` carries motion states whose agent id equals the track's agent id
and whose timestamps are strictly increasing. -/
theorem C8_track_invariants (s : Scenario)
    (hsorted : s.rows.Pairwise (fun a b =>
      a.case_id = b.case_id → a.track_id = b.track_id →
        a.timestamp_ms < b.timestamp_ms))
    (cid : Int) (c : INTERACTIONCase) (hok : get_case s cid = Except.ok c) :
    ∀ t ∈ c.history_tracks ++ c.current_tracks ++ c.futural_tracks,
      (∀ ms ∈ t.motion_states, ms.agent_id = t.agent_id) ∧
      t.motion_states.Pairwise
        (fun a b => a.timestamp_ms < b.timestamp_ms) := by
  obtain ⟨hist, curr, fut, ttp, ia, h1, h2, h3, h4, h5, rfl⟩ :=
    get_case_ok_components s cid c hok
  have hwindow : ∀ w : List Row,
      (∃ p : Row → Bool, w = (caseRows s.rows cid).filter p) →
      ∀ t ∈ get_tracks_from_frame w,
        (∀ ms ∈ t.motion_states, ms.agent_id = t.agent_id) ∧
        t.motion_states.Pairwise
          (fun a b => a.timestamp_ms < b.timestamp_ms) := by
    rintro w ⟨p, rfl⟩
    refine gtff_invariant _ ?_
    have hsub : ((caseRows s.rows cid).filter p).Sublist s.rows :=
      (List.filter_sublist _).trans (List.filter_sublist _)
    have hpw := List.Pairwise.sublist hsub hsorted
    refine List.Pairwise.imp_of_mem ?_ hpw
    intro a b ha hb hR
    have hca : a.case_id = cid := by
      simpa using (List.mem_filter.mp ((List.filter_sublist _).subset ha)).2
    have hcb : b.case_id = cid := by
      simpa using (List.mem_filter.mp ((List.filter_sublist _).subset hb)).2
    exact hR (hca.trans hcb.symm)
  intro t ht
  rcases List.mem_append.mp ht with ht' | hfut
  · rcases List.mem_append.mp ht' with hhist | hcurr
    · exact hwindow hist ⟨_, get_history_ok_eq s.rows cid hist h1⟩ t hhist
    · exact hwindow curr ⟨_, get_current_ok_eq s.rows cid curr h2⟩ t hcurr
  · exact hwindow fut ⟨_, get_futural_ok_eq s.rows cid fut h3⟩ t hfut

/-- Witness for C8 at the concrete sorted test scenario and its case 0. -/
theorem C8_track_invariants_witness :
    wTestRows.Pairwise (fun a b =>
      a.case_id = b.case_id → a.track_id = b.track_id →
        a.timestamp_ms < b.timestamp_ms) ∧
    ∀ t ∈ wTestCase.history_tracks ++ wTestCase.current_tracks ++
        wTestCase.futural_tracks,
      (∀ ms ∈ t.motion_states, ms.agent_id = t.agent_id) ∧
      t.motion_states.Pairwise
        (fun a b => a.timestamp_ms < b.timestamp_ms) :=
  ⟨by decide, C8_track_invariants wTestScenario (by decide) 0 wTestCase
    (by decide)⟩

end InteractionDevkit
